import Mathlib

/-!
Verification of the upload-normalization and image-delivery pipeline of the
customgpt-advanced-vision repository.

The definitions below are a shallow embedding of the route handler in
`src/unnamed/part_002` (the advanced pipeline: `normalizeUploads`,
`uploadBufferToS3`, `createSignedUrlForKey`, `buildImageInputs`) together with
the shared constants of `src/unnamed/part_000` (`MIME_LOOKUP`,
`EXT_LOOKUP_BY_MIME`, `MAX_UPLOAD_BYTES`, `MAX_UPLOAD_COUNT`, `trimSlashes`).

Modelling conventions:
* JavaScript byte buffers (`Buffer`/`Uint8Array`/`ArrayBuffer`) are `List Nat`
  with every entry `< 256` where it matters.
* Fallible code (a JS `throw` inside the request handler) is `Except String`.
* The network calls of the delivery step (S3 put-object, URL presigning) and
  the filesystem read for statically configured reference images are oracles
  carried by an `Env` record; the S3 object-key generation (`randomUUID`) is
  folded into the offload oracle's returned key.
* Character case handling models the ASCII fragment of JavaScript's
  `toLowerCase` and the `/i` regex flag, which is exact on all inputs the
  pipeline manipulates.
-/

namespace Vision

/-! ## Constants (src/unnamed/part_000) -/

def MAX_UPLOAD_BYTES : Nat := 45 * 1024 * 1024

def MAX_UPLOAD_COUNT : Nat := 6

/-- `MIME_LOOKUP` table: file extension (with dot, lowercase) to MIME type. -/
def MIME_LOOKUP : String → Option String
  | ".png" => some "image/png"
  | ".jpg" => some "image/jpeg"
  | ".jpeg" => some "image/jpeg"
  | ".webp" => some "image/webp"
  | ".tif" => some "image/tiff"
  | ".tiff" => some "image/tiff"
  | _ => none

/-- `EXT_LOOKUP_BY_MIME` table: MIME type to bare file extension. -/
def EXT_LOOKUP_BY_MIME : String → Option String
  | "image/png" => some "png"
  | "image/jpeg" => some "jpg"
  | "image/webp" => some "webp"
  | "image/tiff" => some "tiff"
  | _ => none

/-- ASCII lowercasing of a string (JS `toLowerCase` on the ASCII range),
implemented structurally over the character list. -/
def toLowerStr (s : String) : String :=
  String.mk (s.data.map Char.toLower)

/-- JS `String.prototype.trim`: strips whitespace from both ends, implemented
structurally over the character list. -/
def trimStr (s : String) : String :=
  String.mk (((s.data.dropWhile Char.isWhitespace).reverse.dropWhile
    Char.isWhitespace).reverse)

/-- `trimSlashes`: strips leading and trailing `/` characters
(JS `value.replace` with a `^\/+|\/+$` pattern). -/
def trimSlashes (s : String) : String :=
  String.mk (((s.data.dropWhile (fun c => c = '/')).reverse.dropWhile
    (fun c => c = '/')).reverse)

/-- Strips leading `/` characters (JS `image.path.replace` with a `^\/+` pattern). -/
def stripLeadingSlashes (s : String) : String :=
  String.mk (s.data.dropWhile (fun c => c = '/'))

/-- Node `path.extname`: the extension of the last path segment, including the
dot; empty when the segment has no dot, when its only dot leads the segment, or
when the segment is `..`. -/
def extname (s : String) : String :=
  let base := (s.data.reverse.takeWhile (fun c => c ≠ '/')).reverse
  let revBase := base.reverse
  let afterRev := revBase.takeWhile (fun c => c ≠ '.')
  if afterRev.length = revBase.length then ""
  else
    let p := base.length - afterRev.length - 1
    if p = 0 then ""
    else if base = ['.', '.'] then ""
    else String.mk (base.drop p)

/-! ## Base64 (Node `Buffer.toString("base64")` / `Buffer.from(·, "base64")`) -/

/-- The standard base64 alphabet, in index order. -/
def b64AlphabetChars : List Char :=
  "ABCDEFGHIJKLMNOPQRSTUVWXYZabcdefghijklmnopqrstuvwxyz0123456789+/".data

/-- Character for a sextet value; out-of-range values give the padding char. -/
def b64Char (n : Nat) : Char :=
  (b64AlphabetChars[n]?).getD '='

/-- Sextet value of an alphabet character. -/
def b64Index (c : Char) : Option Nat :=
  b64AlphabetChars.indexOf? c

/-- One full 3-byte group encoded as 4 characters. -/
def encode3 (b0 b1 b2 : Nat) : List Char :=
  [b64Char (b0 / 4), b64Char ((b0 % 4) * 16 + b1 / 16),
   b64Char ((b1 % 16) * 4 + b2 / 64), b64Char (b2 % 64)]

/-- Base64 encoding of a byte list, with `=` padding, as produced by Node's
`Buffer.toString("base64")`. -/
def encodeBase64List : List Nat → List Char
  | [] => []
  | [b0] => [b64Char (b0 / 4), b64Char ((b0 % 4) * 16), '=', '=']
  | [b0, b1] => [b64Char (b0 / 4), b64Char ((b0 % 4) * 16 + b1 / 16),
                 b64Char ((b1 % 16) * 4), '=']
  | b0 :: b1 :: b2 :: rest => encode3 b0 b1 b2 ++ encodeBase64List rest

def encodeBase64 (bytes : List Nat) : String :=
  String.mk (encodeBase64List bytes)

/-- Bytes reconstructed from one full group of sextets. -/
def decodeGroup (v0 v1 v2 v3 : Nat) : List Nat :=
  [v0 * 4 + v1 / 16, (v1 % 16) * 16 + v2 / 4, (v2 % 4) * 64 + v3]

/-- Base64 decoding of a character list; models Node's `Buffer.from(·,
"base64")` on well-formed base64 (the image of the encoder, which is the only
place a theorem below evaluates it); Node is additionally forgiving about
invalid characters. -/
def decodeBase64List : List Char → List Nat
  | c0 :: c1 :: c2 :: c3 :: rest =>
      match b64Index c0, b64Index c1 with
      | some v0, some v1 =>
          if c2 = '=' then [v0 * 4 + v1 / 16]
          else
            match b64Index c2 with
            | some v2 =>
                if c3 = '=' then [v0 * 4 + v1 / 16, (v1 % 16) * 16 + v2 / 4]
                else
                  match b64Index c3 with
                  | some v3 => decodeGroup v0 v1 v2 v3 ++ decodeBase64List rest
                  | none => []
            | none => []
      | _, _ => []
  | [c0, c1] =>
      match b64Index c0, b64Index c1 with
      | some v0, some v1 => [v0 * 4 + v1 / 16]
      | _, _ => []
  | [c0, c1, c2] =>
      match b64Index c0, b64Index c1, b64Index c2 with
      | some v0, some v1, some v2 =>
          [v0 * 4 + v1 / 16, (v1 % 16) * 16 + v2 / 4]
      | _, _, _ => []
  | _ => []

def decodeBase64 (s : String) : List Nat :=
  decodeBase64List s.data

/-! ## Data-URL pattern (the `^data:(?<mime>[^;]+);base64,(?<data>.+)$` regex
with the `i` flag, as used in `normalizeUploads`) -/

/-- JS regex line terminators, which `.` does not match. -/
def isLineTerm (c : Char) : Bool :=
  c == '\n' || c == '\r' || c == Char.ofNat 8232 || c == Char.ofNat 8233

/-- Deterministic model of the data-URL regex match: returns the `mime` and
`data` capture groups on success.  Because `[^;]+` cannot cross a `;`, the
mime group is forced to be the maximal `;`-free prefix, so the regex is
equivalent to this first-match parse. -/
def parseDataUrl (s : String) : Option (String × String) :=
  let cs := s.data
  if (cs.take 5).map Char.toLower = "data:".data then
    let rest := cs.drop 5
    let mimeChars := rest.takeWhile (fun c => c != ';')
    if mimeChars.isEmpty then none
    else
      let after := rest.drop mimeChars.length
      if (after.take 8).map Char.toLower = ";base64,".data then
        let payload := after.drop 8
        if payload.isEmpty || payload.any isLineTerm then none
        else some (String.mk mimeChars, String.mk payload)
      else none
  else none

/-- `bufferToDataUrl` of the source: a base64 data URL for a byte buffer. -/
def bufferToDataUrl (buf : List Nat) (mime : String) : String :=
  "data:" ++ mime ++ ";base64," ++ encodeBase64 buf

/-! ## Data model -/

/-- A client-supplied upload descriptor, as consumed by `normalizeUploads`.
Every field is optional; `none` is JS `undefined` (or a value of the wrong
type, which the source treats identically via its `typeof` checks).  `bytes`
and `size` are the two accepted spellings of the reported byte count;
`mimeType` and `type` the two accepted spellings of the explicit MIME field. -/
structure RawUpload where
  name : Option String := none
  detail : Option String := none
  dataUrl : Option String := none
  url : Option String := none
  s3Key : Option String := none
  blobPathname : Option String := none
  blobPath : Option String := none
  buffer : Option (List Nat) := none
  bytes : Option Nat := none
  size : Option Nat := none
  mimeType : Option String := none
  type : Option String := none
deriving DecidableEq

/-- The validated canonical form produced by `normalizeUploads`. -/
structure NormalizedUpload where
  id : String
  name : String
  detail : String
  buffer : Option (List Nat) := none
  dataUrl : Option String := none
  remoteUrl : Option String := none
  s3Key : Option String := none
  mimeType : Option String := none
  bytes : Option Nat := none
  blobPathname : Option String := none
deriving DecidableEq

/-- JS truthiness of an optional string (absent and `""` are falsy). -/
def truthy : Option String → Bool
  | some s => s != ""
  | none => false

/-! ## Upload normalizer (`normalizeUploads` of src/unnamed/part_002) -/

/-- `upload.name?.trim() || placeholder`. -/
def rawName (i : Nat) (u : RawUpload) : String :=
  match u.name with
  | some n => if trimStr n = "" then "Uploaded image " ++ toString (i + 1) else trimStr n
  | none => "Uploaded image " ++ toString (i + 1)

/-- `upload.detail ?? "high"`. -/
def rawDetail (u : RawUpload) : String := u.detail.getD "high"

/-- `typeof upload.dataUrl === "string" ? upload.dataUrl.trim() : ""`. -/
def rawDataUrl (u : RawUpload) : String := (u.dataUrl.map trimStr).getD ""

/-- `typeof upload.url === "string" ? upload.url.trim() : ""`. -/
def rawRemoteUrl (u : RawUpload) : String := (u.url.map trimStr).getD ""

/-- `typeof upload.s3Key === "string" ? trimSlashes(upload.s3Key.trim()) : undefined`. -/
def rawS3Key (u : RawUpload) : Option String :=
  u.s3Key.map (fun s => trimSlashes (trimStr s))

/-- `blobPathname`, falling back to the `blobPath` spelling. -/
def rawBlobPathname (u : RawUpload) : Option String :=
  match u.blobPathname with
  | some s => some (trimSlashes (trimStr s))
  | none =>
    match u.blobPath with
    | some s => some (trimSlashes (trimStr s))
    | none => none

/-- `upload.bytes`, else `upload.size` (the reported byte count). -/
def reportedBytes (u : RawUpload) : Option Nat := u.bytes <|> u.size

/-- `upload.mimeType.toLowerCase()`, else `upload.type.toLowerCase()`. -/
def explicitMime (u : RawUpload) : Option String :=
  (u.mimeType.map toLowerStr) <|> (u.type.map toLowerStr)

/-- The size-limit rejection message (`upload.name ?? "#<index+1>"`;
`MAX_UPLOAD_BYTES / (1024 * 1024)` prints as `45`). -/
def oversizeMsg (i : Nat) (u : RawUpload) : String :=
  "Uploaded image \"" ++ u.name.getD ("#" ++ toString (i + 1)) ++
    "\" exceeds the 45MB limit."

/-- Normalization of the upload at (0-based) position `i`: the body of the
`.map` callback inside `normalizeUploads`. -/
def normalizeOne (i : Nat) (u : RawUpload) : Except String NormalizedUpload :=
  let id := "upload-" ++ toString (i + 1)
  let name := rawName i u
  let detail := rawDetail u
  let dataUrl := rawDataUrl u
  let remoteUrl := rawRemoteUrl u
  let s3Key := (rawS3Key u).getD ""
  let blobPathname := rawBlobPathname u
  match u.buffer with
  | some buf =>
      let bytes := (reportedBytes u).getD buf.length
      if bytes > MAX_UPLOAD_BYTES then .error (oversizeMsg i u)
      else
        let ext := toLowerStr (extname name)
        let inferredMime :=
          (explicitMime u).getD ((MIME_LOOKUP ext).getD "application/octet-stream")
        .ok { id, name, detail, buffer := some buf, mimeType := some inferredMime,
              bytes := some bytes,
              dataUrl := if dataUrl = "" then none else some dataUrl, blobPathname }
  | none =>
      if dataUrl ≠ "" then
        match parseDataUrl dataUrl with
        | none =>
            .error ("Uploaded image #" ++ toString (i + 1) ++
              " is missing a valid base64 data URL.")
        | some (mime, payload) =>
            let buf := decodeBase64 payload
            if buf.length > MAX_UPLOAD_BYTES then .error (oversizeMsg i u)
            else
              .ok { id, name, detail, dataUrl := some dataUrl, buffer := some buf,
                    mimeType := some (toLowerStr mime), bytes := some buf.length,
                    blobPathname }
      else if remoteUrl ≠ "" then
        .ok { id, name, detail, remoteUrl := some remoteUrl,
              bytes := reportedBytes u, mimeType := explicitMime u, blobPathname }
      else if s3Key ≠ "" then
        .ok { id, name, detail, s3Key := some s3Key,
              bytes := reportedBytes u, mimeType := explicitMime u, blobPathname }
      else
        .error ("Upload \"" ++ name ++
          "\" must include either a base64 dataUrl, direct url, or s3Key.")

/-- Normalization of a list starting at position `i`; a JS `throw` inside the
`.map` callback aborts the whole call, which `Except` models by propagating
the first error. -/
def normalizeList : Nat → List RawUpload → Except String (List NormalizedUpload)
  | _, [] => .ok []
  | i, u :: rest =>
      match normalizeOne i u with
      | .error e => .error e
      | .ok n =>
          match normalizeList (i + 1) rest with
          | .error e => .error e
          | .ok ns => .ok (n :: ns)

/-- `normalizeUploads`: truncates to `MAX_UPLOAD_COUNT` then normalizes each
item in order. -/
def normalizeUploads (uploads : List RawUpload) : Except String (List NormalizedUpload) :=
  normalizeList 0 (uploads.take MAX_UPLOAD_COUNT)

/-- `true` exactly on `Except.error`. -/
def isError {α : Type} : Except String α → Bool
  | .error _ => true
  | .ok _ => false

/-! ## Delivery strategy selector (`buildImageInputs` of src/unnamed/part_002) -/

/-- A statically configured reference image (`schematicConfig.images` entry).
The reference configuration ships an empty list, but the code iterates over an
arbitrary one. -/
structure ConfigImage where
  id : String
  label : String
  caption : Option String := none
  path : String
  detail : Option String := none
deriving DecidableEq

/-- External collaborators and configuration, read once per process.
`s3Configured` is `hasAwsConfig` (equivalently, a non-null `s3Client`);
`sign` models `getSignedUrl` for an existing object key; `offload` models the
put-object-then-presign body of `uploadBufferToS3` and yields the generated
`(key, url)` pair (the random key generation is folded into the oracle);
`readFile` models `fs.readFile` for reference images. -/
structure Env where
  s3Configured : Bool
  sign : String → Except String String
  offload : List Nat → Option String → Except String (String × String)
  readFile : String → Except String (List Nat)
  cwd : String
  configImages : List ConfigImage

/-- One model-facing content block. -/
inductive ContentBlock
  | inputText (text : String)
  | inputImage (imageUrl : String) (detail : String)
deriving DecidableEq

/-- One entry of the response's `uploadSummaries`. -/
structure UploadSummary where
  id : String
  name : String
  bytes : Option Nat := none
  mimeType : Option String := none
  strategy : Option String := none
  url : Option String := none
  key : Option String := none
  blobPathname : Option String := none
deriving DecidableEq

/-- The per-upload outcome of the delivery step. -/
structure Delivery where
  imageUrl : String
  strategy : String
  summary : UploadSummary
deriving DecidableEq

/-- `pat` occurs as a contiguous subsequence of `s`. -/
def startsWithSeq : List Char → List Char → Bool
  | [], _ => true
  | _ :: _, [] => false
  | p :: ps, c :: cs => p == c && startsWithSeq ps cs

def containsSeq (pat : List Char) : List Char → Bool
  | [] => pat.isEmpty
  | c :: cs => startsWithSeq pat (c :: cs) || containsSeq pat cs

/-- The `/vercel-storage\.com/i` test on a remote URL. -/
def isVercelBlobUrl (url : String) : Bool :=
  containsSeq "vercel-storage.com".data (toLowerStr url).data

/-- `createSignedUrlForKey`: throws when no storage client is configured,
otherwise presigns the slash-trimmed key. -/
def createSignedUrlForKey (env : Env) (key : String) : Except String (String × String) :=
  if env.s3Configured then
    match env.sign (trimSlashes key) with
    | .ok url => .ok (trimSlashes key, url)
    | .error e => .error e
  else .error "AWS credentials are not configured for S3 access."

/-- `uploadBufferToS3`: `null` when no storage client is configured, otherwise
the oracle's put-and-presign outcome. -/
def uploadBufferToS3 (env : Env) (buf : List Nat) (mime : Option String) :
    Except String (Option (String × String)) :=
  if env.s3Configured then
    match env.offload buf mime with
    | .ok r => .ok (some r)
    | .error e => .error e
  else .ok none

/-- The summary skeleton built before strategy selection (`bytes` and
`mimeType` copied when present). -/
def baseSummary (u : NormalizedUpload) : UploadSummary :=
  { id := u.id, name := u.name, bytes := u.bytes, mimeType := u.mimeType }

/-- Stage 2 of delivery: presign a caller-asserted existing S3 key.  A failure
of `createSignedUrlForKey` is rethrown as an error naming the upload. -/
def deliverStage2 (env : Env) (u : NormalizedUpload) (s0 : UploadSummary) :
    Except String (Option Delivery) :=
  if truthy u.s3Key then
    match createSignedUrlForKey env (u.s3Key.getD "") with
    | .error _ =>
        .error ("Unable to load uploaded image \"" ++ u.name ++ "\" from S3.")
    | .ok (k, url) =>
        if url = "" then .ok none
        else .ok (some { imageUrl := url, strategy := "s3-key", summary := { s0 with
          strategy := some "s3-key",
          key := some k,
          url := some url } })
  else .ok none

/-- Stage 3 of delivery: best-effort buffer offload.  An offload error is
caught and logged in the source and never propagates, which this model
expresses by mapping it to `none` (fall through). -/
def deliverStage3 (env : Env) (u : NormalizedUpload) (s0 : UploadSummary) :
    Option Delivery :=
  if u.buffer.isSome && env.s3Configured then
    match uploadBufferToS3 env (u.buffer.getD []) u.mimeType with
    | .error _ => none
    | .ok none => none
    | .ok (some (k, url)) =>
        if url = "" then none
        else some { imageUrl := url, strategy := "s3", summary := { s0 with
          strategy := some "s3",
          key := some k,
          url := some url } }
  else none

/-- Stage 4 of delivery: inline fallback from the original data URL or the
raw buffer; with neither available the upload fails. -/
def deliverStage4 (u : NormalizedUpload) (s0 : UploadSummary) :
    Except String Delivery :=
  let inlineDataUrl : Option String :=
    if truthy u.dataUrl then u.dataUrl
    else if u.buffer.isSome && truthy u.mimeType then
      some (bufferToDataUrl (u.buffer.getD []) (u.mimeType.getD ""))
    else none
  match inlineDataUrl with
  | some d =>
      .ok { imageUrl := d, strategy := "inline",
            summary := { s0 with strategy := some "inline" } }
  | none =>
      .error ("Unable to determine an image URL for upload \"" ++ u.name ++ "\".")

/-- Delivery strategy selection for one normalized upload: the body of the
upload loop in `buildImageInputs` (remote URL passthrough, then key signing,
then best-effort offload, then inline fallback). -/
def deliverOne (env : Env) (u : NormalizedUpload) : Except String Delivery :=
  let s0 := baseSummary u
  if truthy u.remoteUrl then
    let r := u.remoteUrl.getD ""
    let strat := if isVercelBlobUrl r then "vercel-blob" else "remote-url"
    .ok { imageUrl := r, strategy := strat, summary := { s0 with
      strategy := some strat,
      url := some r,
      blobPathname := if truthy u.blobPathname then u.blobPathname else none } }
  else
    match deliverStage2 env u s0 with
    | .error e => .error e
    | .ok (some d) => .ok d
    | .ok none =>
        match deliverStage3 env u s0 with
        | some d => .ok d
        | none => deliverStage4 u s0

/-- `toDataUrl` of the source: inline a reference-image file, rejecting
unsupported extensions. -/
def toDataUrl (filePath : String) (fileBuffer : List Nat) : Except String String :=
  let ext := toLowerStr (extname filePath)
  match MIME_LOOKUP ext with
  | none =>
      .error ("Unsupported schematic image extension \"" ++ ext ++
        "\". Update MIME_LOOKUP to continue.")
  | some mime => .ok ("data:" ++ mime ++ ";base64," ++ encodeBase64 fileBuffer)

/-- The two content blocks pushed for one configured reference image. -/
def refBlocksOne (env : Env) (image : ConfigImage) : Except String (List ContentBlock) :=
  let absolutePath := env.cwd ++ "/public/" ++ stripLeadingSlashes image.path
  match env.readFile absolutePath with
  | .error e => .error e
  | .ok file =>
      match toDataUrl absolutePath file with
      | .error e => .error e
      | .ok dUrl =>
          .ok [ContentBlock.inputText ("Reference " ++ image.id ++ ": " ++ image.label ++
                  (match image.caption with
                   | some c => if c = "" then "" else " — " ++ c
                   | none => "")),
               ContentBlock.inputImage dUrl (image.detail.getD "high")]

/-- The reference-image loop of `buildImageInputs`. -/
def refBlocks (env : Env) : List ConfigImage → Except String (List ContentBlock)
  | [] => .ok []
  | img :: rest =>
      match refBlocksOne env img with
      | .error e => .error e
      | .ok b =>
          match refBlocks env rest with
          | .error e => .error e
          | .ok bs => .ok (b ++ bs)

/-- The upload loop of `buildImageInputs`: per upload, deliver, record the
summary, and push one label text block plus one image block. -/
def deliverAll (env : Env) :
    List NormalizedUpload → Except String (List ContentBlock × List UploadSummary)
  | [] => .ok ([], [])
  | u :: rest =>
      match deliverOne env u with
      | .error e => .error e
      | .ok d =>
          match deliverAll env rest with
          | .error e => .error e
          | .ok (cs, ss) =>
              .ok ([ContentBlock.inputText ("Uploaded " ++ u.id ++ ": " ++ u.name),
                    ContentBlock.inputImage d.imageUrl u.detail] ++ cs,
                   d.summary :: ss)

/-- `buildImageInputs`: normalize, attach configured reference images, then
deliver each upload in order. -/
def buildImageInputs (env : Env) (uploadPayloads : List RawUpload) :
    Except String (List ContentBlock × List UploadSummary) :=
  match normalizeUploads uploadPayloads with
  | .error e => .error e
  | .ok normalizedUploads =>
      match refBlocks env env.configImages with
      | .error e => .error e
      | .ok refs =>
          match deliverAll env normalizedUploads with
          | .error e => .error e
          | .ok (ucs, ss) => .ok (refs ++ ucs, ss)

def isImageBlock : ContentBlock → Bool
  | .inputImage _ _ => true
  | .inputText _ => false

/-- The `uploadsAttached` response field: the number of `input_image` blocks
in the assembled content (computed by `POST` from `buildImageInputs`'s
contents). -/
def uploadsAttached (contents : List ContentBlock) : Nat :=
  (contents.filter isImageBlock).length

/-- Fallback value used only to state that delivery succeeded. -/
def defaultDelivery : Delivery :=
  { imageUrl := "", strategy := "", summary := { id := "", name := "" } }

/-- The (deterministic) outcome of `deliverOne`, defaulting on error. -/
def deliveryOf (env : Env) (u : NormalizedUpload) : Delivery :=
  match deliverOne env u with
  | .ok d => d
  | .error _ => defaultDelivery

/-- The two content blocks contributed by one successfully delivered upload. -/
def deliveredBlocks (env : Env) (u : NormalizedUpload) : List ContentBlock :=
  [ContentBlock.inputText ("Uploaded " ++ u.id ++ ": " ++ u.name),
   ContentBlock.inputImage (deliveryOf env u).imageUrl u.detail]

/-- The payload-source classification of the spec: buffer, then data URL,
then remote URL, then storage key. -/
inductive PayloadSource
  | buf
  | dataUrl
  | remoteUrl
  | s3Key
deriving DecidableEq

/-- The first resolvable payload source of a raw descriptor, following the
priority conditions of `normalizeUploads`. -/
def resolvedSource (u : RawUpload) : Option PayloadSource :=
  if u.buffer.isSome then some .buf
  else if rawDataUrl u ≠ "" then some .dataUrl
  else if rawRemoteUrl u ≠ "" then some .remoteUrl
  else if (rawS3Key u).getD "" ≠ "" then some .s3Key
  else none

/-- Delivery picked one of the two URL-passthrough strategy tags. -/
def isPassthroughResult : Except String Delivery → Prop
  | .ok d => d.strategy = "vercel-blob" ∨ d.strategy = "remote-url"
  | .error _ => False

/-- Delivery succeeded with the inline strategy. -/
def isInlineResult : Except String Delivery → Prop
  | .ok d => d.strategy = "inline"
  | .error _ => False

/-- The strategy tags reported by a pipeline run (empty on failure). -/
def strategiesOf (r : Except String (List ContentBlock × List UploadSummary)) :
    List (Option String) :=
  match r with
  | .ok (_, ss) => ss.map (fun s => s.strategy)
  | .error _ => []

/-! ## Concrete environments and inputs used by witnesses and counterexamples -/

/-- No storage configured (the all-or-nothing AWS env check failed). -/
def envNoS3 : Env where
  s3Configured := false
  sign := fun _ => .error "S3 disabled"
  offload := fun _ _ => .error "S3 disabled"
  readFile := fun _ => .error "missing file"
  cwd := "/app"
  configImages := []

/-- Storage configured but every network call fails. -/
def envS3fail : Env where
  s3Configured := true
  sign := fun _ => .error "network failure"
  offload := fun _ _ => .error "network failure"
  readFile := fun _ => .error "missing file"
  cwd := "/app"
  configImages := []

/-- Storage configured and every network call succeeds. -/
def envS3ok : Env where
  s3Configured := true
  sign := fun k => .ok ("https://s3.example/" ++ k)
  offload := fun _ _ =>
    .ok ("vision-uploads/schematics/generated.bin", "https://s3.example/signed")
  readFile := fun _ => .error "missing file"
  cwd := "/app"
  configImages := []

/-- No storage, but one statically configured reference image whose file read
succeeds. -/
def envRef : Env where
  s3Configured := false
  sign := fun _ => .error "S3 disabled"
  offload := fun _ _ => .error "S3 disabled"
  readFile := fun _ => .ok [0]
  cwd := "/app"
  configImages := [{ id := "R1", label := "Reference plan", path := "logo.png" }]

def uC1 : RawUpload :=
  { name := some "plan", url := some "https://example.com/plan.png", buffer := some [0] }

def nC1 : NormalizedUpload :=
  { id := "upload-1", name := "plan", detail := "high",
    remoteUrl := some "https://example.com/plan.png" }

def uC2 : RawUpload :=
  { name := some "plan.png", buffer := some [0], bytes := some (45 * 1024 * 1024 + 1) }

def uC3 : RawUpload :=
  { name := some "n", buffer := some [7], dataUrl := some "not-a-data-url",
    url := some "https://example.com/x.png", s3Key := some "k" }

def uC3d : RawUpload :=
  { name := some "m", buffer := some [7], dataUrl := some "not-a-data-url" }

def nC3d : NormalizedUpload :=
  { id := "upload-1", name := "m", detail := "high", buffer := some [7],
    dataUrl := some "not-a-data-url", mimeType := some "application/octet-stream",
    bytes := some 1 }

def usC4 : List RawUpload := [{ name := some "k", s3Key := some "key.png" }]

def nC4 : NormalizedUpload :=
  { id := "upload-1", name := "k", detail := "high", s3Key := some "key.png" }

def uC5 : RawUpload := { name := some "x", buffer := some [1], mimeType := some "" }

def usC6 : List RawUpload := [{ buffer := some [0] }]

def nC6 : NormalizedUpload :=
  { id := "upload-1", name := "Uploaded image 1", detail := "high",
    buffer := some [0], mimeType := some "application/octet-stream",
    bytes := some 1 }

def usC7 : List RawUpload :=
  [{ name := some "A", dataUrl := some "data:image/png;base64,AAAA" },
   { name := some "B", dataUrl := some "data:image/png;base64,AAAA" }]

def nC7a : NormalizedUpload :=
  { id := "upload-1", name := "A", detail := "high",
    dataUrl := some "data:image/png;base64,AAAA", buffer := some [0, 0, 0],
    mimeType := some "image/png", bytes := some 3 }

def nC7b : NormalizedUpload :=
  { id := "upload-2", name := "B", detail := "high",
    dataUrl := some "data:image/png;base64,AAAA", buffer := some [0, 0, 0],
    mimeType := some "image/png", bytes := some 3 }

def uC5w : RawUpload := { name := some "w", dataUrl := some "data:image/png;base64,AAAA" }

def nC5w : NormalizedUpload :=
  { id := "upload-1", name := "w", detail := "high",
    dataUrl := some "data:image/png;base64,AAAA", buffer := some [0, 0, 0],
    mimeType := some "image/png", bytes := some 3 }

def uC8 : RawUpload :=
  { name := some "x.png", buffer := some [0], mimeType := some "IMAGE/JPEG" }

def nC8 : NormalizedUpload :=
  { id := "upload-1", name := "x.png", detail := "high", buffer := some [0],
    mimeType := some "image/jpeg", bytes := some 1 }

def uC10 : RawUpload :=
  { name := some "C", dataUrl := some "data:image/png;base64,AAAA" }

def nC10 : NormalizedUpload :=
  { id := "upload-1", name := "C", detail := "high",
    dataUrl := some "data:image/png;base64,AAAA", buffer := some [0, 0, 0],
    mimeType := some "image/png", bytes := some 3 }

def csC7 : List ContentBlock :=
  [ContentBlock.inputText "Uploaded upload-1: A",
   ContentBlock.inputImage "data:image/png;base64,AAAA" "high",
   ContentBlock.inputText "Uploaded upload-2: B",
   ContentBlock.inputImage "data:image/png;base64,AAAA" "high"]

def ssC7 : List UploadSummary :=
  [{ id := "upload-1", name := "A", bytes := some 3, mimeType := some "image/png",
     strategy := some "inline" },
   { id := "upload-2", name := "B", bytes := some 3, mimeType := some "image/png",
     strategy := some "inline" }]

def csC10 : List ContentBlock :=
  [ContentBlock.inputText "Reference R1: Reference plan",
   ContentBlock.inputImage "data:image/png;base64,AA==" "high",
   ContentBlock.inputText "Uploaded upload-1: C",
   ContentBlock.inputImage "data:image/png;base64,AAAA" "high"]

def ssC10 : List UploadSummary :=
  [{ id := "upload-1", name := "C", bytes := some 3, mimeType := some "image/png",
     strategy := some "inline" }]

/-- The property that the `j`-th normalized upload comes from normalizing the
`j`-th raw input (so output order is exactly input order). -/
def positionalFrom (us : List RawUpload) (ns : List NormalizedUpload) : Prop :=
  ns.length = (us.take MAX_UPLOAD_COUNT).length ∧
  ∀ (j : Nat) (n : NormalizedUpload) (u : RawUpload),
    ns[j]? = some n → us[j]? = some u → normalizeOne j u = .ok n

/-! ## Base64 round-trip lemmas -/

theorem b64Char_props : ∀ v : Nat, v < 64 → b64Index (b64Char v) = some v ∧ b64Char v ≠ '=' := by
  decide

theorem isLineTerm_b64Char (n : Nat) : isLineTerm (b64Char n) = false := by
  unfold b64Char
  cases h : b64AlphabetChars[n]? with
  | none => simp [h]; decide
  | some c =>
      have hc : c ∈ b64AlphabetChars := by
        obtain ⟨hn, rfl⟩ := List.getElem?_eq_some.mp h
        exact List.getElem_mem hn
      have : ∀ d ∈ b64AlphabetChars, isLineTerm d = false := by decide
      simp [h, this c hc]

theorem isLineTerm_pad : isLineTerm '=' = false := by decide

theorem encode_not_lineTerm :
    ∀ (bytes : List Nat), ∀ c ∈ encodeBase64List bytes, isLineTerm c = false
  | [], c, hc => by simp [encodeBase64List] at hc
  | [b0], c, hc => by
      simp only [encodeBase64List, List.mem_cons, List.not_mem_nil, or_false] at hc
      rcases hc with rfl | rfl | rfl | rfl
      all_goals first | exact isLineTerm_b64Char _ | exact isLineTerm_pad
  | [b0, b1], c, hc => by
      simp only [encodeBase64List, List.mem_cons, List.not_mem_nil, or_false] at hc
      rcases hc with rfl | rfl | rfl | rfl
      all_goals first | exact isLineTerm_b64Char _ | exact isLineTerm_pad
  | b0 :: b1 :: b2 :: rest, c, hc => by
      simp only [encodeBase64List, encode3, List.mem_append, List.mem_cons,
        List.not_mem_nil, or_false] at hc
      rcases hc with (rfl | rfl | rfl | rfl) | hc
      · exact isLineTerm_b64Char _
      · exact isLineTerm_b64Char _
      · exact isLineTerm_b64Char _
      · exact isLineTerm_b64Char _
      · exact encode_not_lineTerm rest c hc

theorem encode_ne_nil : ∀ (bytes : List Nat), bytes ≠ [] → encodeBase64List bytes ≠ []
  | [], h => absurd rfl h
  | [_], _ => by simp [encodeBase64List]
  | [_, _], _ => by simp [encodeBase64List]
  | _ :: _ :: _ :: _, _ => by simp [encodeBase64List, encode3]

/-- Decoding inverts encoding on byte lists. -/
theorem decode_encode : ∀ (bytes : List Nat), (∀ b ∈ bytes, b < 256) →
    decodeBase64List (encodeBase64List bytes) = bytes
  | [], _ => rfl
  | [b0], h => by
      have hb : b0 < 256 := h b0 (by simp)
      have h0 := b64Char_props (b0 / 4) (by omega)
      have h1 := b64Char_props ((b0 % 4) * 16) (by omega)
      simp only [encodeBase64List, decodeBase64List, h0.1, h1.1, if_pos rfl,
        if_true, List.cons.injEq, and_true]
      omega
  | [b0, b1], h => by
      have hb0 : b0 < 256 := h b0 (by simp)
      have hb1 : b1 < 256 := h b1 (by simp)
      have h0 := b64Char_props (b0 / 4) (by omega)
      have h1 := b64Char_props ((b0 % 4) * 16 + b1 / 16) (by omega)
      have h2 := b64Char_props ((b1 % 16) * 4) (by omega)
      simp only [encodeBase64List, decodeBase64List, h0.1, h1.1, h2.1,
        if_neg h2.2, if_pos rfl, if_true, List.cons.injEq, and_true]
      omega
  | b0 :: b1 :: b2 :: rest, h => by
      have hb0 : b0 < 256 := h b0 (by simp)
      have hb1 : b1 < 256 := h b1 (by simp)
      have hb2 : b2 < 256 := h b2 (by simp)
      have h0 := b64Char_props (b0 / 4) (by omega)
      have h1 := b64Char_props ((b0 % 4) * 16 + b1 / 16) (by omega)
      have h2 := b64Char_props ((b1 % 16) * 4 + b2 / 64) (by omega)
      have h3 := b64Char_props (b2 % 64) (by omega)
      have ih := decode_encode rest (fun b hb => h b (by simp [hb]))
      simp only [encodeBase64List, encode3, List.cons_append, List.nil_append,
        decodeBase64List, h0.1, h1.1, h2.1, h3.1, if_neg h2.2, if_neg h3.2, ih,
        decodeGroup, List.cons_append, List.nil_append, List.cons.injEq]
      exact ⟨by omega, by omega, by omega, ih⟩

/-! ## Data-URL parse lemmas -/

theorem takeWhile_all_append (p : Char → Bool) (l r : List Char) (x : Char)
    (hl : ∀ c ∈ l, p c = true) (hx : p x = false) :
    (l ++ x :: r).takeWhile p = l := by
  induction l with
  | nil => simp [List.takeWhile, hx]
  | cons c cs ih =>
      have hc := hl c (by simp)
      simp [List.takeWhile, hc, ih (fun d hd => hl d (by simp [hd]))]

/-- Parsing recovers the mime group and base64 payload from an encoded data
URL, for a nonempty payload and a nonempty, semicolon-free mime type. -/
theorem parse_bufferToDataUrl (bytes : List Nat) (mime : String)
    (hb : bytes ≠ []) (hm : mime.data ≠ []) (hsemi : ∀ c ∈ mime.data, c ≠ ';') :
    parseDataUrl (bufferToDataUrl bytes mime) = some (mime, encodeBase64 bytes) := by
  have henc : (encodeBase64 bytes).data = encodeBase64List bytes := rfl
  have hdata : (bufferToDataUrl bytes mime).data =
      "data:".data ++ (mime.data ++ (";base64,".data ++ encodeBase64List bytes)) := by
    simp [bufferToDataUrl, String.data_append, List.append_assoc, henc]
  have htake5 :
      ("data:".data ++ (mime.data ++ (";base64,".data ++ encodeBase64List bytes))).take 5 =
        "data:".data := List.take_left' rfl
  have hmapd : ("data:".data).map Char.toLower = "data:".data := by decide
  have hdrop5 :
      ("data:".data ++ (mime.data ++ (";base64,".data ++ encodeBase64List bytes))).drop 5 =
        mime.data ++ (";base64,".data ++ encodeBase64List bytes) := List.drop_left' rfl
  have htw :
      (mime.data ++ (";base64,".data ++ encodeBase64List bytes)).takeWhile
        (fun c => c != ';') = mime.data :=
    takeWhile_all_append _ mime.data ("base64,".data ++ encodeBase64List bytes) ';'
      (fun c hc => by simpa using hsemi c hc) (by decide)
  have him : mime.data.isEmpty = false := by simp [List.isEmpty_iff, hm]
  have hdropm :
      (mime.data ++ (";base64,".data ++ encodeBase64List bytes)).drop mime.data.length =
        ";base64,".data ++ encodeBase64List bytes := List.drop_left' rfl
  have htake8 : ((";base64,".data ++ encodeBase64List bytes)).take 8 = ";base64,".data :=
    List.take_left' rfl
  have hmapb : (";base64,".data).map Char.toLower = ";base64,".data := by decide
  have hdrop8 : ((";base64,".data ++ encodeBase64List bytes)).drop 8 = encodeBase64List bytes :=
    List.drop_left' rfl
  have hea : (encodeBase64List bytes).isEmpty = false := by
    simp [List.isEmpty_iff, encode_ne_nil bytes hb]
  have hany : (encodeBase64List bytes).any isLineTerm = false :=
    List.any_eq_false.mpr (fun c hc => by simp [encode_not_lineTerm bytes c hc])
  simp only [parseDataUrl, hdata, htake5, hmapd, hdrop5, htw, him, hdropm, htake8,
    hmapb, hdrop8, hea, hany, eq_self_iff_true, if_true, Bool.or_self,
    Bool.false_eq_true, if_false]
  rfl

/-! ## Normalizer lemmas -/

/-- The oversize rejection of the buffer branch, at any position. -/
theorem normalizeOne_oversize (i : Nat) (u : RawUpload) (b : List Nat)
    (hb : u.buffer = some b)
    (hs : (reportedBytes u).getD b.length > MAX_UPLOAD_BYTES) :
    normalizeOne i u = .error (oversizeMsg i u) := by
  simp only [normalizeOne, hb, if_pos hs]

/-- The successful buffer branch, fully evaluated. -/
theorem normalizeOne_buffer_ok (i : Nat) (u : RawUpload) (b : List Nat)
    (hb : u.buffer = some b)
    (hs : ¬ (reportedBytes u).getD b.length > MAX_UPLOAD_BYTES) :
    normalizeOne i u = .ok
      { id := "upload-" ++ toString (i + 1), name := rawName i u,
        detail := rawDetail u, buffer := some b,
        mimeType := some ((explicitMime u).getD
          ((MIME_LOOKUP (toLowerStr (extname (rawName i u)))).getD "application/octet-stream")),
        bytes := some ((reportedBytes u).getD b.length),
        dataUrl := if rawDataUrl u = "" then none else some (rawDataUrl u),
        blobPathname := rawBlobPathname u } := by
  simp only [normalizeOne, hb, if_neg hs]

/-- The successful remote-URL branch, fully evaluated. -/
theorem normalizeOne_remote_ok (i : Nat) (u : RawUpload)
    (hb : u.buffer = none) (hd : rawDataUrl u = "") (hr : rawRemoteUrl u ≠ "") :
    normalizeOne i u = .ok
      { id := "upload-" ++ toString (i + 1), name := rawName i u,
        detail := rawDetail u, remoteUrl := some (rawRemoteUrl u),
        bytes := reportedBytes u, mimeType := explicitMime u,
        blobPathname := rawBlobPathname u } := by
  simp only [normalizeOne, hb, hd, ne_eq, not_true_eq_false, if_false, if_pos hr]

/-- The successful storage-key branch, fully evaluated. -/
theorem normalizeOne_s3_ok (i : Nat) (u : RawUpload)
    (hb : u.buffer = none) (hd : rawDataUrl u = "") (hr : rawRemoteUrl u = "")
    (hk : (rawS3Key u).getD "" ≠ "") :
    normalizeOne i u = .ok
      { id := "upload-" ++ toString (i + 1), name := rawName i u,
        detail := rawDetail u, s3Key := some ((rawS3Key u).getD ""),
        bytes := reportedBytes u, mimeType := explicitMime u,
        blobPathname := rawBlobPathname u } := by
  simp only [normalizeOne, hb, hd, hr, ne_eq, not_true_eq_false, if_false, if_pos hk]

/-- The unresolvable-item rejection. -/
theorem normalizeOne_unresolvable (i : Nat) (u : RawUpload)
    (hb : u.buffer = none) (hd : rawDataUrl u = "") (hr : rawRemoteUrl u = "")
    (hk : (rawS3Key u).getD "" = "") :
    normalizeOne i u = .error ("Upload \"" ++ rawName i u ++
      "\" must include either a base64 dataUrl, direct url, or s3Key.") := by
  simp only [normalizeOne, hb, hd, hr, hk, ne_eq, not_true_eq_false, if_false]

/-- A successful `normalizeList` is one-to-one: same length as its input. -/
theorem normalizeList_ok_length :
    ∀ (i : Nat) (us : List RawUpload) (ns : List NormalizedUpload),
    normalizeList i us = .ok ns → ns.length = us.length
  | _, [], ns, h => by
      simp only [normalizeList, Except.ok.injEq] at h
      simp [← h]
  | i, u :: rest, ns, h => by
      simp only [normalizeList] at h
      cases hu : normalizeOne i u with
      | error e => rw [hu] at h; exact absurd h (by simp)
      | ok n =>
          rw [hu] at h
          cases hr : normalizeList (i + 1) rest with
          | error e => rw [hr] at h; exact absurd h (by simp)
          | ok tail =>
              rw [hr] at h
              simp only [Except.ok.injEq] at h
              subst h
              simp [normalizeList_ok_length (i + 1) rest tail hr]

/-- A successful `normalizeList` is positional: the `j`-th output comes from
normalizing the `j`-th input at offset position `i + j`. -/
theorem normalizeList_ok_get :
    ∀ (i : Nat) (us : List RawUpload) (ns : List NormalizedUpload),
    normalizeList i us = .ok ns →
    ∀ (j : Nat) (n : NormalizedUpload) (u : RawUpload),
      ns[j]? = some n → us[j]? = some u → normalizeOne (i + j) u = .ok n
  | _, [], ns, h => by
      simp only [normalizeList, Except.ok.injEq] at h
      subst h
      intro j n u hn hu
      simp at hn
  | i, u0 :: rest, ns, h => by
      simp only [normalizeList] at h
      cases hu0 : normalizeOne i u0 with
      | error e => rw [hu0] at h; exact absurd h (by simp)
      | ok n0 =>
          rw [hu0] at h
          cases hr : normalizeList (i + 1) rest with
          | error e => rw [hr] at h; exact absurd h (by simp)
          | ok tail =>
              rw [hr] at h
              simp only [Except.ok.injEq] at h
              subst h
              intro j n u hn hu
              cases j with
              | zero =>
                  simp only [List.getElem?_cons_zero, Option.some.injEq] at hn hu
                  subst hn; subst hu
                  exact hu0
              | succ j =>
                  simp only [List.getElem?_cons_succ] at hn hu
                  have h2 := normalizeList_ok_get (i + 1) rest tail hr j n u hn hu
                  have heq : i + 1 + j = i + (j + 1) := by omega
                  rw [heq] at h2
                  exact h2

/-- If some input within the list fails to normalize (at every position), the
whole normalization fails. -/
theorem normalizeList_error_mem :
    ∀ (i : Nat) (us : List RawUpload) (j : Nat) (u : RawUpload),
    us[j]? = some u → (∀ k, isError (normalizeOne k u) = true) →
    isError (normalizeList i us) = true
  | _, [], j, u, hu, _ => by simp at hu
  | i, u0 :: rest, 0, u, hu, herr => by
      simp only [List.getElem?_cons_zero, Option.some.injEq] at hu
      subst hu
      cases hu0 : normalizeOne i u0 with
      | error e => simp [normalizeList, hu0, isError]
      | ok n =>
          have := herr i
          rw [hu0] at this
          simp [isError] at this
  | i, u0 :: rest, j + 1, u, hu, herr => by
      simp only [List.getElem?_cons_succ] at hu
      have ih := normalizeList_error_mem (i + 1) rest j u hu herr
      cases hu0 : normalizeOne i u0 with
      | error e => simp [normalizeList, hu0, isError]
      | ok n =>
          cases hr : normalizeList (i + 1) rest with
          | error e => simp [normalizeList, hu0, hr, isError]
          | ok tail => rw [hr] at ih; simp [isError] at ih

/-! ## Delivery lemmas -/

/-- A failing delivery of any member upload fails the whole upload loop. -/
theorem deliverAll_error_mem :
    ∀ (env : Env) (ns : List NormalizedUpload) (u : NormalizedUpload),
    u ∈ ns → isError (deliverOne env u) = true →
    isError (deliverAll env ns) = true
  | env, [], u, hu, _ => by simp at hu
  | env, u0 :: rest, u, hu, herr => by
      rcases List.mem_cons.mp hu with rfl | hmem
      · cases hd : deliverOne env u with
        | error e => simp [deliverAll, hd, isError]
        | ok d => rw [hd] at herr; simp [isError] at herr
      · cases hd : deliverOne env u0 with
        | error e => simp [deliverAll, hd, isError]
        | ok d =>
            have ih := deliverAll_error_mem env rest u hmem herr
            cases hr : deliverAll env rest with
            | error e => simp [deliverAll, hd, hr, isError]
            | ok out => rw [hr] at ih; simp [isError] at ih

/-- A successful upload loop produces, in input order, exactly the label and
image blocks of each upload, and one summary per upload. -/
theorem deliverAll_ok_shape :
    ∀ (env : Env) (ns : List NormalizedUpload) (cs : List ContentBlock)
      (ss : List UploadSummary),
    deliverAll env ns = .ok (cs, ss) →
    cs = (ns.map (deliveredBlocks env)).flatten ∧
    ss = ns.map (fun u => (deliveryOf env u).summary)
  | env, [], cs, ss, h => by
      simp only [deliverAll, Except.ok.injEq, Prod.mk.injEq] at h
      simp [← h.1, ← h.2]
  | env, u0 :: rest, cs, ss, h => by
      simp only [deliverAll] at h
      cases hd : deliverOne env u0 with
      | error e => rw [hd] at h; exact absurd h (by simp)
      | ok d =>
          rw [hd] at h
          cases hr : deliverAll env rest with
          | error e => rw [hr] at h; exact absurd h (by simp)
          | ok out =>
              rw [hr] at h
              obtain ⟨cs0, ss0⟩ := out
              simp only [Except.ok.injEq, Prod.mk.injEq] at h
              obtain ⟨hcs, hss⟩ := h
              subst hcs; subst hss
              have ih := deliverAll_ok_shape env rest cs0 ss0 hr
              constructor
              · rw [ih.1]
                simp [List.map_cons, List.flatten_cons, deliveredBlocks, deliveryOf, hd]
              · rw [ih.2]
                simp [List.map_cons, deliveryOf, hd]

/-- Appending contents adds the image counts. -/
theorem uploadsAttached_append (a b : List ContentBlock) :
    uploadsAttached (a ++ b) = uploadsAttached a + uploadsAttached b := by
  simp [uploadsAttached, List.filter_append]

/-- Each configured reference image contributes exactly one image block. -/
theorem refBlocksOne_count (env : Env) (img : ConfigImage) (b : List ContentBlock)
    (h : refBlocksOne env img = .ok b) : uploadsAttached b = 1 := by
  simp only [refBlocksOne] at h
  cases hf : env.readFile (env.cwd ++ "/public/" ++ stripLeadingSlashes img.path) with
  | error e => simp [hf] at h
  | ok file =>
      simp only [hf] at h
      cases hu : toDataUrl (env.cwd ++ "/public/" ++ stripLeadingSlashes img.path) file with
      | error e => simp [hu] at h
      | ok dUrl =>
          simp only [hu, Except.ok.injEq] at h
          subst h
          simp [uploadsAttached, isImageBlock]

/-- The reference-image loop contributes one image block per configured image. -/
theorem refBlocks_count :
    ∀ (env : Env) (imgs : List ConfigImage) (refs : List ContentBlock),
    refBlocks env imgs = .ok refs → uploadsAttached refs = imgs.length
  | env, [], refs, h => by
      simp only [refBlocks, Except.ok.injEq] at h
      simp [← h, uploadsAttached]
  | env, img :: rest, refs, h => by
      simp only [refBlocks] at h
      cases hb : refBlocksOne env img with
      | error e => rw [hb] at h; exact absurd h (by simp)
      | ok b =>
          rw [hb] at h
          cases hr : refBlocks env rest with
          | error e => rw [hr] at h; exact absurd h (by simp)
          | ok bs =>
              rw [hr] at h
              simp only [Except.ok.injEq] at h
              subst h
              simp [uploadsAttached_append, refBlocksOne_count env img b hb,
                refBlocks_count env rest bs hr, Nat.add_comm]

/-- Evaluating a singleton request: the whole normalization fails exactly when
the one item fails. -/
theorem normalizeUploads_singleton (u : RawUpload) :
    normalizeUploads [u] =
      match normalizeOne 0 u with
      | .error e => .error e
      | .ok n => .ok [n] := by
  have ht : ([u] : List RawUpload).take MAX_UPLOAD_COUNT = [u] := rfl
  simp only [normalizeUploads, ht, normalizeList]

/-! ## Claim theorems -/

/-- C6: for every input list of raw upload descriptors, of any length, the
normalized output list has length at most `MAX_UPLOAD_COUNT` (6); items beyond
the maximum are silently dropped (the result only depends on the first 6
items), never reported as an error. -/
theorem C6_count_bounded_and_truncated :
    (∀ (us : List RawUpload) (ns : List NormalizedUpload),
       normalizeUploads us = .ok ns → ns.length ≤ MAX_UPLOAD_COUNT) ∧
    (∀ us : List RawUpload,
       normalizeUploads us = normalizeUploads (us.take MAX_UPLOAD_COUNT)) := by
  constructor
  · intro us ns h
    have hl := normalizeList_ok_length 0 (us.take MAX_UPLOAD_COUNT) ns h
    rw [hl, List.length_take]
    exact Nat.min_le_left _ _
  · intro us
    simp [normalizeUploads, List.take_take]

theorem C6_witness :
    normalizeUploads usC6 = .ok [nC6] ∧ [nC6].length ≤ MAX_UPLOAD_COUNT :=
  ⟨by rfl, C6_count_bounded_and_truncated.1 usC6 [nC6] (by rfl)⟩

/-- C2: an upload (within the processed prefix) carrying a resolvable buffer
whose declared-or-measured size exceeds the 45 MB cap makes normalization
reject the whole request; and the rejection is monotone in the declared size:
growing the size of a rejected request never turns it into an accepted one. -/
theorem C2_oversize_rejected_monotone :
    (∀ (us : List RawUpload) (j : Nat) (u : RawUpload) (b : List Nat),
       us[j]? = some u → j < MAX_UPLOAD_COUNT → u.buffer = some b →
       (reportedBytes u).getD b.length > MAX_UPLOAD_BYTES →
       isError (normalizeUploads us) = true) ∧
    (∀ (u : RawUpload) (b : List Nat) (s t : Nat),
       u.buffer = some b → u.bytes = some s → s ≤ t →
       isError (normalizeUploads [u]) = true →
       isError (normalizeUploads [{ u with bytes := some t }]) = true) := by
  constructor
  · intro us j u b hj hlt hb hs
    have hj6 : (us.take MAX_UPLOAD_COUNT)[j]? = some u := by
      rw [List.getElem?_take_of_lt hlt]; exact hj
    exact normalizeList_error_mem 0 (us.take MAX_UPLOAD_COUNT) j u hj6
      (fun k => by rw [normalizeOne_oversize k u b hb hs]; rfl)
  · intro u b s t hb hbytes hst herr
    have hrep : reportedBytes u = some s := by simp [reportedBytes, hbytes]
    have hs : s > MAX_UPLOAD_BYTES := by
      by_contra hns
      have hok := normalizeOne_buffer_ok 0 u b hb (by rw [hrep]; simpa using hns)
      rw [normalizeUploads_singleton u, hok] at herr
      simp [isError] at herr
    have hb2 : ({ u with bytes := some t } : RawUpload).buffer = some b := hb
    have hrep2 : reportedBytes { u with bytes := some t } = some t := by
      simp [reportedBytes]
    have herr2 := normalizeOne_oversize 0 { u with bytes := some t } b hb2
      (by rw [hrep2]; simp only [Option.getD_some]; omega)
    rw [normalizeUploads_singleton _, herr2]
    rfl

theorem C2_witness :
    uC2.buffer = some [0] ∧
    (reportedBytes uC2).getD 1 > MAX_UPLOAD_BYTES ∧
    isError (normalizeUploads [uC2]) = true ∧
    isError (normalizeUploads [{ uC2 with bytes := some (45 * 1024 * 1024 + 2) }]) = true :=
  ⟨rfl, by decide,
   C2_oversize_rejected_monotone.1 [uC2] 0 uC2 [0] rfl (by decide) rfl (by decide),
   C2_oversize_rejected_monotone.2 uC2 [0] (45 * 1024 * 1024 + 1) (45 * 1024 * 1024 + 2)
     rfl rfl (by omega)
     (C2_oversize_rejected_monotone.1 [uC2] 0 uC2 [0] rfl (by decide) rfl (by decide))⟩

/-- The buffer branch never looks at the remote URL or storage key. -/
theorem normalizeOne_buffer_ignores (i : Nat) (u : RawUpload) (b : List Nat)
    (hb : u.buffer = some b) :
    normalizeOne i u = normalizeOne i { u with url := none, s3Key := none } := by
  by_cases hs : (reportedBytes u).getD b.length > MAX_UPLOAD_BYTES
  · rw [normalizeOne_oversize i u b hb hs,
      normalizeOne_oversize i { u with url := none, s3Key := none } b hb hs]
    rfl
  · rw [normalizeOne_buffer_ok i u b hb hs,
      normalizeOne_buffer_ok i { u with url := none, s3Key := none } b hb hs]
    rfl

/-- The data-URL branch, fully evaluated. -/
theorem normalizeOne_dataUrl_eq (i : Nat) (u : RawUpload)
    (hb : u.buffer = none) (hd : rawDataUrl u ≠ "") :
    normalizeOne i u =
      match parseDataUrl (rawDataUrl u) with
      | none =>
          .error ("Uploaded image #" ++ toString (i + 1) ++
            " is missing a valid base64 data URL.")
      | some (mime, payload) =>
          if (decodeBase64 payload).length > MAX_UPLOAD_BYTES then
            .error (oversizeMsg i u)
          else
            .ok { id := "upload-" ++ toString (i + 1), name := rawName i u,
                  detail := rawDetail u, dataUrl := some (rawDataUrl u),
                  buffer := some (decodeBase64 payload),
                  mimeType := some (toLowerStr mime),
                  bytes := some (decodeBase64 payload).length,
                  blobPathname := rawBlobPathname u } := by
  simp only [normalizeOne, hb, if_pos hd]

/-- The data-URL branch never looks at the remote URL or storage key. -/
theorem normalizeOne_dataUrl_ignores (i : Nat) (u : RawUpload)
    (hb : u.buffer = none) (hd : rawDataUrl u ≠ "") :
    normalizeOne i u = normalizeOne i { u with url := none, s3Key := none } := by
  rw [normalizeOne_dataUrl_eq i u hb hd,
    normalizeOne_dataUrl_eq i { u with url := none, s3Key := none } hb hd]
  rfl

/-- The remote-URL branch never looks at the storage key. -/
theorem normalizeOne_remote_ignores (i : Nat) (u : RawUpload)
    (hb : u.buffer = none) (hd : rawDataUrl u = "") (hr : rawRemoteUrl u ≠ "") :
    normalizeOne i u = normalizeOne i { u with s3Key := none } := by
  rw [normalizeOne_remote_ok i u hb hd hr,
    normalizeOne_remote_ok i { u with s3Key := none } hb hd hr]
  rfl

/-- C3 (amended): normalization resolves the payload source with strict
priority buffer > base64 data URL > remote URL > storage key, and which branch
is taken is decided by the first resolvable source; the remote URL and storage
key are ignored whenever a higher-priority source resolves (removing them
never changes the outcome, and the normalized record carries neither); if none
of the four resolve, normalization throws an error naming the item.  However,
a data URL present alongside a buffer is NOT ignored: the buffer branch copies
it, unvalidated, into the normalized record (where the inline delivery
fallback later prefers it verbatim over the buffer). -/
theorem C3_source_priority :
    ∀ (i : Nat) (u : RawUpload),
    (resolvedSource u = none →
       normalizeOne i u = .error ("Upload \"" ++ rawName i u ++
         "\" must include either a base64 dataUrl, direct url, or s3Key.")) ∧
    (resolvedSource u = some .buf →
       normalizeOne i u = normalizeOne i { u with url := none, s3Key := none } ∧
       ∀ n, normalizeOne i u = .ok n →
         n.buffer = u.buffer ∧ n.remoteUrl = none ∧ n.s3Key = none ∧
         n.dataUrl = (if rawDataUrl u = "" then none else some (rawDataUrl u))) ∧
    (resolvedSource u = some .dataUrl →
       normalizeOne i u = normalizeOne i { u with url := none, s3Key := none } ∧
       ∀ n, normalizeOne i u = .ok n →
         n.dataUrl = some (rawDataUrl u) ∧ n.buffer.isSome = true ∧
         n.remoteUrl = none ∧ n.s3Key = none) ∧
    (resolvedSource u = some .remoteUrl →
       normalizeOne i u = normalizeOne i { u with s3Key := none } ∧
       normalizeOne i u = .ok {
         id := "upload-" ++ toString (i + 1),
         name := rawName i u, detail := rawDetail u,
         remoteUrl := some (rawRemoteUrl u), bytes := reportedBytes u,
         mimeType := explicitMime u, blobPathname := rawBlobPathname u }) ∧
    (resolvedSource u = some .s3Key →
       normalizeOne i u = .ok {
         id := "upload-" ++ toString (i + 1),
         name := rawName i u, detail := rawDetail u,
         s3Key := some ((rawS3Key u).getD ""), bytes := reportedBytes u,
         mimeType := explicitMime u, blobPathname := rawBlobPathname u }) := by
  intro i u
  refine ⟨?_, ?_, ?_, ?_, ?_⟩ <;> intro h <;> simp only [resolvedSource] at h <;>
    split_ifs at h with h1 h2 h3 h4 <;> try simp at h
  · have hb : u.buffer = none := Option.not_isSome_iff_eq_none.mp (by simpa using h1)
    exact normalizeOne_unresolvable i u hb (not_not.mp h2) (not_not.mp h3) (not_not.mp h4)
  · obtain ⟨b, hb⟩ := Option.isSome_iff_exists.mp h1
    refine ⟨normalizeOne_buffer_ignores i u b hb, ?_⟩
    intro n hn
    by_cases hs : (reportedBytes u).getD b.length > MAX_UPLOAD_BYTES
    · rw [normalizeOne_oversize i u b hb hs] at hn
      exact absurd hn (by simp)
    · rw [normalizeOne_buffer_ok i u b hb hs] at hn
      simp only [Except.ok.injEq] at hn
      subst hn
      exact ⟨hb.symm, rfl, rfl, rfl⟩
  · have hb : u.buffer = none := Option.not_isSome_iff_eq_none.mp (by simpa using h1)
    refine ⟨normalizeOne_dataUrl_ignores i u hb h2, ?_⟩
    intro n hn
    rw [normalizeOne_dataUrl_eq i u hb h2] at hn
    cases hp : parseDataUrl (rawDataUrl u) with
    | none => simp [hp] at hn
    | some mp =>
        obtain ⟨mime, payload⟩ := mp
        simp only [hp] at hn
        by_cases hs : (decodeBase64 payload).length > MAX_UPLOAD_BYTES
        · rw [if_pos hs] at hn; exact absurd hn (by simp)
        · rw [if_neg hs] at hn
          simp only [Except.ok.injEq] at hn
          subst hn
          exact ⟨rfl, rfl, rfl, rfl⟩
  · have hb : u.buffer = none := Option.not_isSome_iff_eq_none.mp (by simpa using h1)
    exact ⟨normalizeOne_remote_ignores i u hb (not_not.mp h2) h3,
      normalizeOne_remote_ok i u hb (not_not.mp h2) h3⟩
  · have hb : u.buffer = none := Option.not_isSome_iff_eq_none.mp (by simpa using h1)
    exact normalizeOne_s3_ok i u hb (not_not.mp h2) (not_not.mp h3) h4

theorem C3_witness :
    resolvedSource uC3 = some .buf ∧
    (normalizeOne 0 uC3 = normalizeOne 0 { uC3 with url := none, s3Key := none } ∧
     ∀ n, normalizeOne 0 uC3 = .ok n →
       n.buffer = uC3.buffer ∧ n.remoteUrl = none ∧ n.s3Key = none ∧
       n.dataUrl = (if rawDataUrl uC3 = "" then none else some (rawDataUrl uC3))) :=
  ⟨by rfl, ((C3_source_priority 0 uC3).2.1 (by rfl))⟩

/-- C3 (counterexample): a data URL present alongside a buffer is neither
unused nor ignored.  Dropping it from the descriptor changes normalization's
output (the record keeps the unvalidated string), and the pipeline then hands
that raw string — not the buffer's encoding — verbatim to the model as the
inline image payload. -/
theorem C3_counterexample :
    uC3d.buffer = some [7] ∧
    normalizeOne 0 uC3d = .ok nC3d ∧
    normalizeOne 0 { uC3d with dataUrl := none } = .ok { nC3d with dataUrl := none } ∧
    nC3d.dataUrl = some "not-a-data-url" ∧
    buildImageInputs envNoS3 [uC3d] = .ok
      ([ContentBlock.inputText "Uploaded upload-1: m",
        ContentBlock.inputImage "not-a-data-url" "high"],
       [{ id := "upload-1", name := "m", bytes := some 1,
          mimeType := some "application/octet-stream", strategy := some "inline" }]) :=
  ⟨rfl, by rfl, by rfl, rfl, by rfl⟩

/-- C8: for every buffer-sourced upload that normalizes successfully, the
normalized MIME type follows the strict priority explicit client MIME field
(lowercased) > extension lookup on the display name > generic fallback; in
particular an explicit MIME field wins over a conflicting extension. -/
theorem C8_mime_priority :
    ∀ (i : Nat) (u : RawUpload) (b : List Nat) (n : NormalizedUpload),
    u.buffer = some b → normalizeOne i u = .ok n →
    (∀ m, explicitMime u = some m → n.mimeType = some m) ∧
    (explicitMime u = none →
      ∀ mm, MIME_LOOKUP (toLowerStr (extname (rawName i u))) = some mm →
        n.mimeType = some mm) ∧
    (explicitMime u = none →
      MIME_LOOKUP (toLowerStr (extname (rawName i u))) = none →
      n.mimeType = some "application/octet-stream") := by
  intro i u b n hb hok
  by_cases hs : (reportedBytes u).getD b.length > MAX_UPLOAD_BYTES
  · rw [normalizeOne_oversize i u b hb hs] at hok
    exact absurd hok (by simp)
  · rw [normalizeOne_buffer_ok i u b hb hs] at hok
    simp only [Except.ok.injEq] at hok
    subst hok
    refine ⟨?_, ?_, ?_⟩
    · intro m hm; simp [hm]
    · intro hm mm hmm; simp [hm, hmm]
    · intro hm hmm; simp [hm, hmm]

theorem C8_witness :
    uC8.buffer = some [0] ∧ normalizeOne 0 uC8 = .ok nC8 ∧
    explicitMime uC8 = some "image/jpeg" ∧
    MIME_LOOKUP (toLowerStr (extname (rawName 0 uC8))) = some "image/png" ∧
    nC8.mimeType = some "image/jpeg" :=
  ⟨rfl, by rfl, by rfl, by rfl,
   (C8_mime_priority 0 uC8 [0] nC8 rfl (by rfl)).1 "image/jpeg" (by rfl)⟩

/-- C1 (counterexample): a raw upload descriptor carrying both a usable remote
URL and a raw buffer is not delivered by URL passthrough: the buffer wins
normalization priority, so the selected strategy is `inline` without storage
and `s3` (offload) with storage — both contradicting the claim. -/
theorem C1_counterexample :
    trimStr ((uC1.url).getD "") ≠ "" ∧
    uC1.buffer = some [0] ∧
    strategiesOf (buildImageInputs envNoS3 [uC1]) = [some "inline"] ∧
    strategiesOf (buildImageInputs envS3ok [uC1]) = [some "s3"] :=
  ⟨by decide, rfl, by rfl, by rfl⟩

/-- C1 (amended): for every normalized upload that carries a nonempty remote
URL, the delivery strategy selected is always a URL-passthrough variant
(`vercel-blob` or `remote-url`), never offload — at the raw-descriptor level
this holds only when the remote URL is the first resolvable source, since a
buffer in the same descriptor takes normalization priority. -/
theorem C1_remote_passthrough :
    ∀ (env : Env) (u : NormalizedUpload), truthy u.remoteUrl = true →
    isPassthroughResult (deliverOne env u) := by
  intro env u h
  simp only [deliverOne, h, if_true]
  by_cases hv : isVercelBlobUrl (u.remoteUrl.getD "")
  · simp [isPassthroughResult, hv]
  · simp [isPassthroughResult, hv]

theorem C1_witness :
    truthy nC1.remoteUrl = true ∧ isPassthroughResult (deliverOne envNoS3 nC1) :=
  ⟨by decide, C1_remote_passthrough envNoS3 nC1 (by decide)⟩

/-- Shape of successfully normalized records: a storage-key record carries no
remote URL and no buffer; a buffer-carrying record carries no remote URL and
no storage key. -/
theorem normalizeOne_ok_shape (i : Nat) (ru : RawUpload) (n : NormalizedUpload)
    (h : normalizeOne i ru = .ok n) :
    (truthy n.s3Key = true → n.remoteUrl = none ∧ n.buffer = none) ∧
    (n.buffer.isSome = true → n.remoteUrl = none ∧ n.s3Key = none) := by
  cases hb : ru.buffer with
  | some b =>
      by_cases hs : (reportedBytes ru).getD b.length > MAX_UPLOAD_BYTES
      · rw [normalizeOne_oversize i ru b hb hs] at h; exact absurd h (by simp)
      · rw [normalizeOne_buffer_ok i ru b hb hs] at h
        simp only [Except.ok.injEq] at h
        subst h
        exact ⟨fun hk => by simp [truthy] at hk, fun _ => ⟨rfl, rfl⟩⟩
  | none =>
      by_cases hd : rawDataUrl ru ≠ ""
      · rw [normalizeOne_dataUrl_eq i ru hb hd] at h
        cases hp : parseDataUrl (rawDataUrl ru) with
        | none => simp [hp] at h
        | some mp =>
            obtain ⟨mime, payload⟩ := mp
            simp only [hp] at h
            by_cases hs : (decodeBase64 payload).length > MAX_UPLOAD_BYTES
            · rw [if_pos hs] at h; exact absurd h (by simp)
            · rw [if_neg hs] at h
              simp only [Except.ok.injEq] at h
              subst h
              exact ⟨fun hk => by simp [truthy] at hk, fun _ => ⟨rfl, rfl⟩⟩
      · have hd2 : rawDataUrl ru = "" := not_not.mp hd
        by_cases hr : rawRemoteUrl ru ≠ ""
        · rw [normalizeOne_remote_ok i ru hb hd2 hr] at h
          simp only [Except.ok.injEq] at h
          subst h
          exact ⟨fun hk => by simp [truthy] at hk, fun hbuf => by simp at hbuf⟩
        · have hr2 : rawRemoteUrl ru = "" := not_not.mp hr
          by_cases hk : (rawS3Key ru).getD "" ≠ ""
          · rw [normalizeOne_s3_ok i ru hb hd2 hr2 hk] at h
            simp only [Except.ok.injEq] at h
            subst h
            exact ⟨fun _ => ⟨rfl, rfl⟩, fun hbuf => by simp at hbuf⟩
          · rw [normalizeOne_unresolvable i ru hb hd2 hr2 (not_not.mp hk)] at h
            exact absurd h (by simp)

/-- A failing upload loop fails the whole `buildImageInputs` call. -/
theorem buildImageInputs_error_of_deliver (env : Env) (us : List RawUpload)
    (ns : List NormalizedUpload) (hn : normalizeUploads us = .ok ns)
    (h : isError (deliverAll env ns) = true) :
    isError (buildImageInputs env us) = true := by
  simp only [buildImageInputs, hn]
  cases hr : refBlocks env env.configImages with
  | error e => simp [isError]
  | ok refs =>
      cases hd : deliverAll env ns with
      | error e => simp [isError]
      | ok out => rw [hd] at h; simp [isError] at h

/-- Stage 2 rethrows a signing failure as an error naming the upload. -/
theorem deliverOne_s3key_error (env : Env) (u : NormalizedUpload)
    (hr : truthy u.remoteUrl = false) (hk : truthy u.s3Key = true)
    (hsign : isError (createSignedUrlForKey env (u.s3Key.getD "")) = true) :
    deliverOne env u =
      .error ("Unable to load uploaded image \"" ++ u.name ++ "\" from S3.") := by
  have h2 : deliverStage2 env u (baseSummary u) =
      .error ("Unable to load uploaded image \"" ++ u.name ++ "\" from S3.") := by
    simp only [deliverStage2, hk, if_true]
    cases hc : createSignedUrlForKey env (u.s3Key.getD "") with
    | error e => simp
    | ok kv => rw [hc] at hsign; simp [isError] at hsign
  simp only [deliverOne, hr, Bool.false_eq_true, if_false, h2]

/-- C4: for every upload that resolved to a storage key, a failure of the
signed-URL request is not swallowed: the delivery step throws an error naming
the upload, and the whole `buildImageInputs` call fails (so no content block
or summary is produced for any upload). -/
theorem C4_s3key_sign_failure_aborts :
    (∀ (env : Env) (u : NormalizedUpload),
       truthy u.remoteUrl = false → truthy u.s3Key = true →
       isError (createSignedUrlForKey env (u.s3Key.getD "")) = true →
       deliverOne env u =
         .error ("Unable to load uploaded image \"" ++ u.name ++ "\" from S3.")) ∧
    (∀ (env : Env) (us : List RawUpload) (ns : List NormalizedUpload)
       (u : NormalizedUpload),
       normalizeUploads us = .ok ns → u ∈ ns → truthy u.s3Key = true →
       isError (createSignedUrlForKey env (u.s3Key.getD "")) = true →
       isError (buildImageInputs env us) = true) := by
  constructor
  · exact deliverOne_s3key_error
  · intro env us ns u hn hmem hk hsign
    obtain ⟨j, hj⟩ := List.mem_iff_getElem?.mp hmem
    have hjlt : j < ns.length := (List.getElem?_eq_some.mp hj).1
    have hlen := normalizeList_ok_length 0 (us.take MAX_UPLOAD_COUNT) ns hn
    have hjlt2 : j < (us.take MAX_UPLOAD_COUNT).length := by rw [← hlen]; exact hjlt
    have hu : (us.take MAX_UPLOAD_COUNT)[j]? = some ((us.take MAX_UPLOAD_COUNT)[j]) :=
      List.getElem?_eq_getElem hjlt2
    have hone := normalizeList_ok_get 0 (us.take MAX_UPLOAD_COUNT) ns hn j u
      ((us.take MAX_UPLOAD_COUNT)[j]) hj hu
    have hshape := normalizeOne_ok_shape (0 + j) ((us.take MAX_UPLOAD_COUNT)[j]) u hone
    have hrf : truthy u.remoteUrl = false := by rw [(hshape.1 hk).1]; rfl
    have hda := deliverAll_error_mem env ns u hmem
      (by rw [deliverOne_s3key_error env u hrf hk hsign]; rfl)
    exact buildImageInputs_error_of_deliver env us ns hn hda

theorem C4_witness :
    truthy nC4.s3Key = true ∧
    normalizeUploads usC4 = .ok [nC4] ∧
    isError (createSignedUrlForKey envS3fail (nC4.s3Key.getD "")) = true ∧
    deliverOne envS3fail nC4 =
      .error "Unable to load uploaded image \"k\" from S3." ∧
    isError (buildImageInputs envS3fail usC4) = true :=
  ⟨by decide, by rfl, by rfl,
   C4_s3key_sign_failure_aborts.1 envS3fail nC4 (by decide) (by decide) (by rfl),
   C4_s3key_sign_failure_aborts.2 envS3fail usC4 [nC4] nC4 (by rfl)
     (by simp) (by decide) (by rfl)⟩

/-- C5 (counterexample): an upload resolved to a raw buffer whose explicit
MIME string is empty has no inline fallback, so a failed best-effort offload
escalates to a request failure (the same request succeeds with strategy `s3`
when the offload works). -/
theorem C5_counterexample :
    uC5.buffer = some [1] ∧ envS3fail.s3Configured = true ∧
    isError (envS3fail.offload [1] (some "")) = true ∧
    buildImageInputs envS3fail [uC5] =
      .error "Unable to determine an image URL for upload \"x\"." ∧
    strategiesOf (buildImageInputs envS3ok [uC5]) = [some "s3"] :=
  ⟨rfl, rfl, by rfl, by rfl, by rfl⟩

/-- C5 (amended): for every upload that resolved to a raw buffer, a failure of
the best-effort storage offload is caught and never escalates, and delivery
falls through to the inline data-URL strategy — provided the upload carries a
data URL or a nonempty MIME type (always the case except for an explicitly
empty client MIME string, where the request instead fails with a
cannot-determine-image-URL error). -/
theorem C5_offload_failure_inline :
    ∀ (env : Env) (us : List RawUpload) (ns : List NormalizedUpload)
      (u : NormalizedUpload) (b : List Nat),
    normalizeUploads us = .ok ns → u ∈ ns → u.buffer = some b →
    env.s3Configured = true → isError (env.offload b u.mimeType) = true →
    (truthy u.dataUrl = true ∨ truthy u.mimeType = true) →
    isInlineResult (deliverOne env u) := by
  intro env us ns u b hn hmem hb hcfg hoff hinl
  obtain ⟨j, hj⟩ := List.mem_iff_getElem?.mp hmem
  have hjlt : j < ns.length := (List.getElem?_eq_some.mp hj).1
  have hlen := normalizeList_ok_length 0 (us.take MAX_UPLOAD_COUNT) ns hn
  have hjlt2 : j < (us.take MAX_UPLOAD_COUNT).length := by rw [← hlen]; exact hjlt
  have hu : (us.take MAX_UPLOAD_COUNT)[j]? = some ((us.take MAX_UPLOAD_COUNT)[j]) :=
    List.getElem?_eq_getElem hjlt2
  have hone := normalizeList_ok_get 0 (us.take MAX_UPLOAD_COUNT) ns hn j u
    ((us.take MAX_UPLOAD_COUNT)[j]) hj hu
  have hshape := (normalizeOne_ok_shape (0 + j) ((us.take MAX_UPLOAD_COUNT)[j]) u hone).2
    (by rw [hb]; rfl)
  have hrf : truthy u.remoteUrl = false := by rw [hshape.1]; rfl
  have hkf : truthy u.s3Key = false := by rw [hshape.2]; rfl
  have h2 : deliverStage2 env u (baseSummary u) = .ok none := by
    simp [deliverStage2, hkf]
  have h3 : deliverStage3 env u (baseSummary u) = none := by
    have hbs : u.buffer.isSome = true := by rw [hb]; rfl
    have hgd : u.buffer.getD [] = b := by rw [hb]; rfl
    simp only [deliverStage3, hbs, hcfg, Bool.and_self, if_true, hgd,
      uploadBufferToS3]
    cases ho : env.offload b u.mimeType with
    | error e => simp
    | ok r => rw [ho] at hoff; simp [isError] at hoff
  have h4 : isInlineResult (deliverStage4 u (baseSummary u)) := by
    by_cases hdy : truthy u.dataUrl = true
    · cases hdv : u.dataUrl with
      | none => rw [hdv] at hdy; simp [truthy] at hdy
      | some d =>
          rw [hdv] at hdy
          simp [deliverStage4, hdy, hdv, isInlineResult]
    · have hmy : truthy u.mimeType = true := by
        rcases hinl with h | h
        · exact absurd h hdy
        · exact h
      have hbs : u.buffer.isSome = true := by rw [hb]; rfl
      simp [deliverStage4, hdy, hbs, hmy, isInlineResult]
  simp only [deliverOne, hrf, Bool.false_eq_true, if_false, h2, h3]
  exact h4

theorem C5_witness :
    normalizeUploads [uC5w] = .ok [nC5w] ∧ nC5w.buffer = some [0, 0, 0] ∧
    envS3fail.s3Configured = true ∧
    isError (envS3fail.offload [0, 0, 0] nC5w.mimeType) = true ∧
    isInlineResult (deliverOne envS3fail nC5w) :=
  ⟨by rfl, rfl, rfl, by rfl,
   C5_offload_failure_inline envS3fail [uC5w] [nC5w] nC5w [0, 0, 0] (by rfl)
     (by simp) rfl rfl (by rfl) (Or.inl (by decide))⟩

/-- Each successfully delivered upload contributes exactly one image block. -/
theorem uploadsAttached_deliveredBlocks (env : Env) :
    ∀ ns : List NormalizedUpload,
    uploadsAttached ((ns.map (deliveredBlocks env)).flatten) = ns.length
  | [] => rfl
  | u :: rest => by
      simp only [List.map_cons, List.flatten_cons, uploadsAttached_append]
      rw [uploadsAttached_deliveredBlocks env rest]
      simp [uploadsAttached, deliveredBlocks, isImageBlock]
      omega

/-- C7: for every input list of uploads, the assembled model-facing content is
the configured reference blocks followed by, in exactly the input upload
order, one label block and one image block per upload (whatever delivery
strategy each one used): the `j`-th upload pair comes from the `j`-th raw
input. -/
theorem C7_content_ordering :
    ∀ (env : Env) (us : List RawUpload) (contents : List ContentBlock)
      (ss : List UploadSummary) (ns : List NormalizedUpload)
      (refs : List ContentBlock),
    buildImageInputs env us = .ok (contents, ss) →
    normalizeUploads us = .ok ns →
    refBlocks env env.configImages = .ok refs →
    contents = refs ++ (ns.map (deliveredBlocks env)).flatten ∧
    positionalFrom us ns := by
  intro env us contents ss ns refs h hn hr
  simp only [buildImageInputs, hn, hr] at h
  cases hd : deliverAll env ns with
  | error e => rw [hd] at h; exact absurd h (by simp)
  | ok out =>
      obtain ⟨ucs, ss2⟩ := out
      rw [hd] at h
      simp only [Except.ok.injEq, Prod.mk.injEq] at h
      obtain ⟨hcs, hss⟩ := h
      have hsh := deliverAll_ok_shape env ns ucs ss2 hd
      refine ⟨by rw [← hcs, hsh.1], normalizeList_ok_length 0 _ ns hn, ?_⟩
      intro j n u hjn hju
      have hjlt : j < ns.length := (List.getElem?_eq_some.mp hjn).1
      have hlen := normalizeList_ok_length 0 (us.take MAX_UPLOAD_COUNT) ns hn
      have hjlt2 : j < MAX_UPLOAD_COUNT := by
        rw [hlen, List.length_take] at hjlt
        omega
      have hju2 : (us.take MAX_UPLOAD_COUNT)[j]? = some u := by
        rw [List.getElem?_take_of_lt hjlt2]; exact hju
      have hg := normalizeList_ok_get 0 (us.take MAX_UPLOAD_COUNT) ns hn j n u hjn hju2
      simpa using hg

theorem C7_witness :
    buildImageInputs envNoS3 usC7 = .ok (csC7, ssC7) ∧
    normalizeUploads usC7 = .ok [nC7a, nC7b] ∧
    refBlocks envNoS3 envNoS3.configImages = .ok [] ∧
    (csC7 = [] ++ ([nC7a, nC7b].map (deliveredBlocks envNoS3)).flatten ∧
     positionalFrom usC7 [nC7a, nC7b]) :=
  ⟨by rfl, by rfl, by rfl,
   C7_content_ordering envNoS3 usC7 csC7 ssC7 [nC7a, nC7b] [] (by rfl) (by rfl) (by rfl)⟩

/-- C10: `uploadsAttached` counts every image content block handed to the
model, reference images included: it equals the number of configured
reference images plus the number of normalized uploads, not the number of
user uploads alone. -/
theorem C10_uploadsAttached_counts :
    ∀ (env : Env) (us : List RawUpload) (contents : List ContentBlock)
      (ss : List UploadSummary) (ns : List NormalizedUpload),
    buildImageInputs env us = .ok (contents, ss) →
    normalizeUploads us = .ok ns →
    uploadsAttached contents = env.configImages.length + ns.length := by
  intro env us contents ss ns h hn
  simp only [buildImageInputs, hn] at h
  cases hr : refBlocks env env.configImages with
  | error e => simp [hr] at h
  | ok refs =>
      simp only [hr] at h
      cases hd : deliverAll env ns with
      | error e => simp [hd] at h
      | ok out =>
          obtain ⟨ucs, ss2⟩ := out
          simp only [hd, Except.ok.injEq, Prod.mk.injEq] at h
          obtain ⟨hcs, hss⟩ := h
          rw [← hcs, uploadsAttached_append, refBlocks_count env _ refs hr,
            (deliverAll_ok_shape env ns ucs ss2 hd).1,
            uploadsAttached_deliveredBlocks env ns]

theorem C10_witness :
    buildImageInputs envRef [uC10] = .ok (csC10, ssC10) ∧
    normalizeUploads [uC10] = .ok [nC10] ∧
    envRef.configImages.length = 1 ∧
    uploadsAttached csC10 = envRef.configImages.length + [nC10].length :=
  ⟨by rfl, by rfl, rfl,
   C10_uploadsAttached_counts envRef [uC10] csC10 ssC10 [nC10] (by rfl) (by rfl)⟩

/-- C9 (counterexample): the round trip fails as stated on the empty buffer
(the regex requires a nonempty payload) and on a MIME type containing `;`
(the regex's mime group stops at the first `;`), so the normalizer's pattern
match rejects both encoded data URLs outright. -/
theorem C9_counterexample :
    parseDataUrl (bufferToDataUrl [] "image/png") = none ∧
    parseDataUrl (bufferToDataUrl [1] "image/png;charset=binary") = none :=
  ⟨by rfl, by rfl⟩

/-- C9 (amended): for every nonempty byte buffer and every nonempty,
semicolon-free MIME type, encoding to a base64 data URL and decoding via the
normalizer's pattern match and base64 decode reproduces the original bytes
exactly. -/
theorem C9_roundtrip :
    ∀ (bytes : List Nat) (mime : String),
    bytes ≠ [] → (∀ b ∈ bytes, b < 256) → mime.data ≠ [] →
    (∀ c ∈ mime.data, c ≠ ';') →
    parseDataUrl (bufferToDataUrl bytes mime) = some (mime, encodeBase64 bytes) ∧
    decodeBase64 (encodeBase64 bytes) = bytes := by
  intro bytes mime hb hlt hm hsemi
  exact ⟨parse_bufferToDataUrl bytes mime hb hm hsemi, decode_encode bytes hlt⟩

theorem C9_witness :
    ([1, 2, 3] : List Nat) ≠ [] ∧ ("image/png").data ≠ [] ∧
    encodeBase64 [1, 2, 3] = "AQID" ∧
    (parseDataUrl (bufferToDataUrl [1, 2, 3] "image/png") =
       some ("image/png", encodeBase64 [1, 2, 3]) ∧
     decodeBase64 (encodeBase64 [1, 2, 3]) = [1, 2, 3]) :=
  ⟨by decide, by decide, by rfl,
   C9_roundtrip [1, 2, 3] "image/png" (by decide) (by decide) (by decide) (by decide)⟩

end Vision
